import Mathlib

set_option maxRecDepth 4000

/-
Verification development for the S9 agent core of the u6yuvi/agentai repository.

Shallow embedding of:
  - core/loop.py        (AgentLoop.run, the step/lifeline control loop)
  - core/context.py     (AgentContext ledger bookkeeping)
  - core/strategy.py    (find_recent_successful_tools)
  - modules/decision.py (generate_plan)
  - modules/action.py   (run_python_sandbox, SandboxMCP.call_tool)

External collaborators (the model call, the tool-server dispatcher, prompt
loading, on-disk memory) are modelled as oracles: total functions, or
Except-valued functions where the Python collaborator can raise.  Python
strings are modelled as Lean String backed by List Char; strip/startswith/
split/in are re-implemented below with Python semantics on that carrier.
-/

/- ## Python-like string primitives -/

def isPySpace (c : Char) : Bool := c.isWhitespace

def stripList (cs : List Char) : List Char :=
  ((cs.dropWhile isPySpace).reverse.dropWhile isPySpace).reverse

/- Python str.strip() with no arguments. -/
def pyStrip (s : String) : String := String.mk (stripList s.data)

/- Python str.strip(c) for a single strip character. -/
def stripCharList (c : Char) (cs : List Char) : List Char :=
  ((cs.dropWhile (fun d => d == c)).reverse.dropWhile (fun d => d == c)).reverse

/- Python str.startswith(pre). -/
def pyStartsWith (s pre : String) : Bool := pre.data.isPrefixOf s.data

def hasSubstrList (pat : List Char) : List Char → Bool
  | [] => pat.isEmpty
  | c :: rest => pat.isPrefixOf (c :: rest) || hasSubstrList pat rest

/- The Python substring test, pat in s. -/
def pyContains (s pat : String) : Bool := hasSubstrList pat.data s.data

def takeUntilSep (sep : List Char) : List Char → List Char
  | [] => []
  | c :: rest => if sep.isPrefixOf (c :: rest) then [] else c :: takeUntilSep sep rest

/- Models s.split(marker)[1] for an s that starts with marker: the piece after
the first occurrence of the marker, up to the next occurrence or the end. -/
def splitAfterMarker (marker s : String) : String :=
  String.mk (takeUntilSep marker.data (s.data.drop marker.data.length))

def pyLower (s : String) : String := String.mk (s.data.map Char.toLower)

def pyDrop (s : String) (n : Nat) : String := String.mk (s.data.drop n)

def splitOnChar (c : Char) : List Char → List (List Char)
  | [] => [[]]
  | d :: rest =>
    let r := splitOnChar c rest
    if d == c then [] :: r
    else
      match r with
      | [] => [[d]]
      | l :: ls => (d :: l) :: ls

/- ## The solve() plan shape check

Models Python re.search of the pattern caret backslash-s-star
(async backslash-s-plus)? def backslash-s-plus solve backslash-s-star
open-paren with re.MULTILINE, as used in core/loop.py line 68 and
modules/decision.py line 54. -/

/- Consumes one mandatory whitespace char plus any further whitespace. -/
def wsTail : List Char → Option (List Char)
  | c :: rest => if isPySpace c then some (rest.dropWhile isPySpace) else none
  | [] => none

def matchDefSolve (cs : List Char) : Bool :=
  if ("def").data.isPrefixOf cs then
    match wsTail (cs.drop 3) with
    | none => false
    | some cs1 =>
      if ("solve").data.isPrefixOf cs1 then
        match (cs1.drop 5).dropWhile isPySpace with
        | '(' :: _ => true
        | _ => false
      else false
  else false

def lineMatchesSolve (line : List Char) : Bool :=
  let cs := line.dropWhile isPySpace
  matchDefSolve cs ||
    (if ("async").data.isPrefixOf cs then
      match wsTail (cs.drop 5) with
      | none => false
      | some cs1 => matchDefSolve cs1
    else false)

/- MULTILINE anchoring: the pattern can start at the beginning of any line. -/
def matchesSolve (s : String) : Bool :=
  (splitOnChar '\n' s.data).any lineMatchesSolve

/- ## Data model: session context, loop result, oracles (core/context.py, core/loop.py) -/

structure LoopResult where
  status : String
  result : String
deriving DecidableEq

/- One entry of AgentContext.task_progress (core/context.py lines 100-106). -/
structure Subtask where
  step : Nat
  tool : String
  status : String
deriving DecidableEq

/- One record appended by MemoryManager.add_tool_output, keeping the fields
the loop supplies that the claims inspect. -/
structure MemRecord where
  tool_name : String
  result : String
  success : Bool
deriving DecidableEq

/- The AgentContext fields read or written by AgentLoop.run. -/
structure Ctx where
  user_input : String
  user_input_override : Option String
  step : Nat
  final_answer : Option String
  task_progress : List Subtask
  memory : List MemRecord
deriving DecidableEq

/- Oracle for the external collaborators as seen from one inner iteration of
the loop, indexed by a global inner-iteration counter.  These oracles are
total: they model the values of collaborator calls that return normally.
The perception and planning calls can also raise (their prompt-template
loading sits outside their try blocks) and nothing in loop.py catches that;
the fallible model EnvE further below makes those raising await points
explicit.  Fields:
  - toolsNonempty k: whether perception plus get_tools_from_servers yields a
    nonempty tool list on the k-th iteration (loop.py lines 39-45);
  - plan k: the string returned by generate_plan (loop.py line 56);
  - sandbox k: the string returned by run_python_sandbox (loop.py line 72,
    always a string, see modules/action.py). -/
structure Env where
  toolsNonempty : Nat → Bool
  plan : Nat → String
  sandbox : Nat → String

/- Trace of collaborator invocations made by the loop, with the arguments the
loop actually passes (loop.py lines 39, 56-57, 72). -/
inductive Event where
  | perception (step : Nat) (input : String)
  | planCall (step : Nat) (userInput : String)
  | sandboxCall (step : Nat) (plan : String)
deriving DecidableEq

/- How one pass through the inner while-body ends: return from run, break out
of the while (to the next step), or decrement lifelines and continue. -/
inductive Outcome where
  | ret (r : LoopResult) (ctx : Ctx)
  | brk (ctx : Ctx)
  | cont (ctx : Ctx)
deriving DecidableEq

def outcomeCtx : Outcome → Ctx
  | Outcome.ret _ c => c
  | Outcome.brk c => c
  | Outcome.cont c => c

/- ## Context operations (core/context.py) -/

/- AgentContext.log_subtask (context.py lines 100-106). -/
def logSubtask (ctx : Ctx) (tool status : String) : Ctx :=
  { ctx with task_progress := ctx.task_progress ++ [⟨ctx.step, tool, status⟩] }

/- The reversed-scan of AgentContext.update_subtask_status (context.py lines
108-113): acting on the reversed ledger, update the first matching entry. -/
def updateSubtaskAux (tool : String) (step : Nat) (status : String) :
    List Subtask → List Subtask
  | [] => []
  | it :: rest =>
    if it.tool == tool && it.step == step then { it with status := status } :: rest
    else it :: updateSubtaskAux tool step status rest

/- AgentContext.update_subtask_status (context.py lines 108-113). -/
def update_subtask_status (ctx : Ctx) (tool status : String) : Ctx :=
  { ctx with task_progress :=
      (updateSubtaskAux tool ctx.step status ctx.task_progress.reverse).reverse }

/- MemoryManager.add_tool_output as invoked from the loop. -/
def addToolOutput (ctx : Ctx) (tool result : String) (success : Bool) : Ctx :=
  { ctx with memory := ctx.memory ++ [⟨tool, result, success⟩] }

/- The effective input of an inner iteration (loop.py lines 38-39):
user_input_override if set, else the original user input. -/
def effInput (ctx : Ctx) : String := ctx.user_input_override.getD ctx.user_input

/- ## Control markers (core/loop.py lines 77-102) -/

def markerFinal : String := "FINAL_ANSWER:"

def markerFPR : String := "FURTHER_PROCESSING_REQUIRED:"

def markerSandboxErr : String := "[sandbox error:"

/- The override input synthesized in the FURTHER_PROCESSING_REQUIRED branch
(loop.py lines 91-98). -/
def mkOverride (userInput content : String) : String :=
  "Original user task: " ++ userInput ++
  "\n\nYour last tool produced this result:\n\n" ++ content ++
  "\n\nIf this fully answers the task, return:\nFINAL_ANSWER: your answer\n\nOtherwise, return the next FUNCTION_CALL."

/- ## One pass through the inner while-body (loop.py lines 36-133) -/

/- The collaborator calls issued by one pass, in order: perception always
runs; planning runs when the tool set is nonempty; the sandbox runs when the
plan matches the solve() shape. -/
def innerEvents (env : Env) (k : Nat) (ctx : Ctx) : List Event :=
  Event.perception ctx.step (effInput ctx) ::
    (match env.toolsNonempty k with
     | false => []
     | true =>
       Event.planCall ctx.step ctx.user_input ::
         (match matchesSolve (env.plan k) with
          | false => []
          | true => [Event.sandboxCall ctx.step (env.plan k)]))

/- State change and loop transition of one pass through the while-body.
Branches in source order: empty tool set (line 45, break), FINAL_ANSWER:
(line 77, return), FURTHER_PROCESSING_REQUIRED: (line 89, break),
[sandbox error: (line 102, lifeline consumed), other string (line 105,
return unless the FPR marker occurs as a substring, line 124), invalid plan
(line 130, lifeline consumed). -/
def innerOutcome (env : Env) (k : Nat) (ctx : Ctx) : Outcome :=
  match env.toolsNonempty k with
  | false => Outcome.brk ctx
  | true =>
    match matchesSolve (env.plan k) with
    | false => Outcome.cont ctx
    | true =>
      let ctx1 := logSubtask ctx "solve_sandbox" "pending"
      let result := pyStrip (env.sandbox k)
      match pyStartsWith result markerFinal with
      | true =>
        let ctx2 := update_subtask_status { ctx1 with final_answer := some result }
          "solve_sandbox" "success"
        Outcome.ret ⟨"done", result⟩ (addToolOutput ctx2 "solve_sandbox" result true)
      | false =>
        match pyStartsWith result markerFPR with
        | true =>
          let content := pyStrip (splitAfterMarker markerFPR result)
          Outcome.brk { ctx1 with user_input_override := some (mkOverride ctx1.user_input content) }
        | false =>
          match pyStartsWith result markerSandboxErr with
          | true =>
            let ctx2 := update_subtask_status
              { ctx1 with final_answer := some "FINAL_ANSWER: [Execution failed]" }
              "solve_sandbox" "failure"
            Outcome.cont (addToolOutput ctx2 "solve_sandbox" result false)
          | false =>
            let ans := "FINAL_ANSWER: " ++ result
            let ctx2 := update_subtask_status { ctx1 with final_answer := some ans }
              "solve_sandbox" "success"
            let ctx3 := addToolOutput ctx2 "solve_sandbox" result true
            match pyContains result markerFPR with
            | true => Outcome.cont ctx3
            | false => Outcome.ret ⟨"done", ans⟩ ctx3

def innerIter (env : Env) (k : Nat) (ctx : Ctx) : Outcome × List Event :=
  (innerOutcome env k ctx, innerEvents env k ctx)

/- ## The inner while-loop and outer for-loop (loop.py lines 31-137) -/

structure InnerRes where
  res : Option LoopResult
  ctx : Ctx
  nextK : Nat
  events : List Event
deriving DecidableEq

/- The while lifelines_left >= 0 loop: with lifelines_left = L the body runs
at most L+1 times, so fuel = L+1. -/
def runInner (env : Env) (k : Nat) : Nat → Ctx → InnerRes
  | 0, ctx => ⟨none, ctx, k, []⟩
  | fuel + 1, ctx =>
    match innerIter env k ctx with
    | (Outcome.ret r c, evs) => ⟨some r, c, k + 1, evs⟩
    | (Outcome.brk c, evs) => ⟨none, c, k + 1, evs⟩
    | (Outcome.cont c, evs) =>
      let rest := runInner env (k + 1) fuel c
      ⟨rest.res, rest.ctx, rest.nextK, evs ++ rest.events⟩

structure RunRes where
  result : LoopResult
  ctx : Ctx
  events : List Event
deriving DecidableEq

def maxStepsAnswer : String := "FINAL_ANSWER: [Max steps reached]"

/- The for step in range(max_steps) loop; rem counts the remaining steps and
stepIdx is the current 0-based step index (loop.py lines 31-137). -/
def runOuter (env : Env) (L : Nat) : Nat → Nat → Nat → Ctx → RunRes
  | _, _, 0, ctx =>
    ⟨⟨"done", maxStepsAnswer⟩, { ctx with final_answer := some maxStepsAnswer }, []⟩
  | k, stepIdx, rem + 1, ctx =>
    let inner := runInner env k (L + 1) { ctx with step := stepIdx }
    match inner.res with
    | some r => ⟨r, inner.ctx, inner.events⟩
    | none =>
      let rest := runOuter env L inner.nextK (stepIdx + 1) rem inner.ctx
      ⟨rest.result, rest.ctx, inner.events ++ rest.events⟩

/- AgentLoop.run (loop.py lines 28-137) with max_steps and
max_lifelines_per_step taken from the strategy profile. -/
def AgentLoop.run (env : Env) (max_steps max_lifelines_per_step : Nat) (ctx : Ctx) : RunRes :=
  runOuter env max_lifelines_per_step 0 0 max_steps ctx

/- ## Plan generator (modules/decision.py lines 22-63)

load_prompt and prompt_template.format live in modules/tools.py, an external
collaborator; both can raise in Python (missing file, bad placeholder), so
they are modelled as Except-valued oracles.  Crucially, in decision.py they
are called OUTSIDE the try block (lines 34-41 precede the try at line 44);
only the model call and the postprocessing are inside it. -/

structure PlanEnv where
  loadPrompt : Except String String
  formatTemplate : String → Except String String
  modelResponse : String → Except String String

def backquoteChar : Char := Char.ofNat 96

def tripleBacktick : String := "\x60\x60\x60"

/- The fenced-code stripping of decision.py lines 48-52: if the trimmed
response starts with three backticks, strip all surrounding backticks and
whitespace, then drop a leading case-insensitive "python" tag. -/
def postprocessRaw (raw0 : String) : String :=
  let raw := pyStrip raw0
  if pyStartsWith raw tripleBacktick then
    let r := pyStrip (String.mk (stripCharList backquoteChar raw.data))
    if pyStartsWith (pyLower r) "python" then pyStrip (pyDrop r 6) else r
  else raw

/- generate_plan (decision.py lines 22-63).  An Except.error models an
exception propagating to the caller. -/
def generate_plan (env : PlanEnv) : Except String String :=
  match env.loadPrompt with
  | Except.error e => Except.error e
  | Except.ok tmpl =>
    match env.formatTemplate tmpl with
    | Except.error e => Except.error e
    | Except.ok prompt =>
      match env.modelResponse prompt with
      | Except.error _ => Except.ok "FINAL_ANSWER: [unknown]"
      | Except.ok raw0 =>
        let raw := postprocessRaw raw0
        if matchesSolve raw then Except.ok raw
        else Except.ok "FINAL_ANSWER: [Could not generate valid solve()]"

/- ## Sandboxed executor (modules/action.py lines 27-85) -/

/- The Python values a solve() plan can return, restricted to the
JSON-like universe the normalization code distinguishes. -/
inductive PyVal where
  | pstr (s : String)
  | pint (n : Int)
  | pbool (b : Bool)
  | pnone
  | plist (elems : List PyVal)
  | pdict (entries : List (String × PyVal))

def joinWith (sep : String) : List String → String
  | [] => ""
  | [s] => s
  | s :: rest => s ++ sep ++ joinWith sep rest

/- Python repr(), used by str() on containers. -/
mutual

def pyRepr : PyVal → String
  | PyVal.pstr s => "\x27" ++ s ++ "\x27"
  | PyVal.pint n => toString n
  | PyVal.pbool b => if b then "True" else "False"
  | PyVal.pnone => "None"
  | PyVal.plist xs => "[" ++ joinWith ", " (pyReprList xs) ++ "]"
  | PyVal.pdict kvs => "\x7b" ++ joinWith ", " (pyReprEntries kvs) ++ "\x7d"

def pyReprList : List PyVal → List String
  | [] => []
  | v :: vs => pyRepr v :: pyReprList vs

def pyReprEntries : List (String × PyVal) → List String
  | [] => []
  | kv :: rest => ("\x27" ++ kv.1 ++ "\x27: " ++ pyRepr kv.2) :: pyReprEntries rest

end

/- Python str(). -/
def pyStr : PyVal → String
  | PyVal.pstr s => s
  | PyVal.pint n => toString n
  | PyVal.pbool b => if b then "True" else "False"
  | PyVal.pnone => "None"
  | PyVal.plist xs => pyRepr (PyVal.plist xs)
  | PyVal.pdict kvs => pyRepr (PyVal.pdict kvs)

def jsonEscapeChar (c : Char) : String :=
  if c == '"' then "\\\""
  else if c == '\\' then "\\\\"
  else if c == '\n' then "\\n"
  else if c == '\t' then "\\t"
  else if c == '\r' then "\\r"
  else String.mk [c]

def jsonEscape (s : String) : String := joinWith "" (s.data.map jsonEscapeChar)

/- json.dumps on this value universe (default separators). -/
mutual

def jsonDumps : PyVal → String
  | PyVal.pstr s => "\"" ++ jsonEscape s ++ "\""
  | PyVal.pint n => toString n
  | PyVal.pbool b => if b then "true" else "false"
  | PyVal.pnone => "null"
  | PyVal.plist xs => "[" ++ joinWith ", " (jsonDumpsList xs) ++ "]"
  | PyVal.pdict kvs => "\x7b" ++ joinWith ", " (jsonDumpsEntries kvs) ++ "\x7d"

def jsonDumpsList : List PyVal → List String
  | [] => []
  | v :: vs => jsonDumps v :: jsonDumpsList vs

def jsonDumpsEntries : List (String × PyVal) → List String
  | [] => []
  | kv :: rest => ("\"" ++ jsonEscape kv.1 ++ "\": " ++ jsonDumps kv.2) :: jsonDumpsEntries rest

end

/- Python dict key lookup (keys are unique in a dict; first match). -/
def lookupKey (key : String) : List (String × PyVal) → Option PyVal
  | [] => none
  | kv :: rest => if kv.1 == key then some kv.2 else lookupKey key rest

/- The result normalization of run_python_sandbox (action.py lines 68-75). -/
def normalizeResult : PyVal → String
  | PyVal.pdict kvs =>
    (match lookupKey "result" kvs with
     | some v => pyStr v
     | none => jsonDumps (PyVal.pdict kvs))
  | PyVal.plist xs => joinWith " " (xs.map pyStr)
  | PyVal.pstr s => s
  | PyVal.pint n => toString n
  | PyVal.pbool b => if b then "True" else "False"
  | PyVal.pnone => "None"

/- Oracle for what happens inside the try block of run_python_sandbox:
  - Except.error e          : compile/exec of the plan raised e
  - Except.ok none          : exec succeeded but defined no solve()
  - Except.ok (some run)    : solve() found; run is its (awaited) invocation,
    which either raises (error, e.g. the tool budget) or returns a value. -/
structure SandboxEnv where
  execPlan : Except String (Option (Except String PyVal))

/- Everything inside the try of action.py lines 33-75. -/
def sandboxBody (env : SandboxEnv) : Except String String :=
  match env.execPlan with
  | Except.error e => Except.error e
  | Except.ok none => Except.error "No solve() function found in plan."
  | Except.ok (some (Except.error e)) => Except.error e
  | Except.ok (some (Except.ok v)) => Except.ok (normalizeResult v)

/- run_python_sandbox (action.py lines 27-85): the except at line 82 converts
any exception into the marked string; nothing propagates. -/
def run_python_sandbox (env : SandboxEnv) : String :=
  match sandboxBody env with
  | Except.ok s => s
  | Except.error e => "[sandbox error: " ++ e ++ "]"

/- ## SandboxMCP tool budget (modules/action.py lines 25-48) -/

def MAX_TOOL_CALLS_PER_PLAN : Nat := 5

/- call_count is the SandboxMCP counter; dispatcher_calls instruments how
many times the underlying real dispatcher has been invoked. -/
structure SandboxMCPState where
  call_count : Nat
  dispatcher_calls : Nat
deriving DecidableEq

/- SandboxMCP.call_tool (action.py lines 40-46): increment the counter, fail
when it exceeds the budget BEFORE touching the dispatcher, otherwise forward
to the dispatcher.  dispatcher i is the response to its i-th invocation. -/
def call_tool (dispatcher : Nat → String) (st : SandboxMCPState) :
    Except String (String × SandboxMCPState) :=
  let st1 : SandboxMCPState := { st with call_count := st.call_count + 1 }
  if MAX_TOOL_CALLS_PER_PLAN < st1.call_count then
    Except.error ("Exceeded max tool calls (" ++ toString MAX_TOOL_CALLS_PER_PLAN ++ ") in solve() plan.")
  else
    Except.ok (dispatcher st1.dispatcher_calls,
      { st1 with dispatcher_calls := st1.dispatcher_calls + 1 })

/- n successive awaited mcp.call_tool invocations from one plan; the first
raised error aborts the whole execution. -/
def runToolCalls (dispatcher : Nat → String) : Nat → SandboxMCPState → Except String SandboxMCPState
  | 0, st => Except.ok st
  | n + 1, st =>
    match call_tool dispatcher st with
    | Except.error e => Except.error e
    | Except.ok (_, st1) => runToolCalls dispatcher n st1

/- ## Memory fallback (core/strategy.py lines 201-212) -/

/- The MemoryItem fields read by find_recent_successful_tools.  tool_name is
Optional in the source; Python truthiness makes None and "" both falsy. -/
structure MemoryItem where
  type : String
  success : Bool
  tool_name : Option String
deriving DecidableEq

/- The test at strategy.py line 206 including tool_name truthiness, returning
the name when the item qualifies. -/
def nameOf (item : MemoryItem) : Option String :=
  if item.type == "tool_output" && item.success then
    match item.tool_name with
    | some n => if n == "" then none else some n
    | none => none
  else none

/- The loop body of find_recent_successful_tools: append unseen qualifying
names; after every item, stop once the limit is reached. -/
def scanTools (limit : Nat) : List MemoryItem → List String → List String
  | [], acc => acc
  | item :: rest, acc =>
    let acc1 :=
      match nameOf item with
      | some n =>
        match acc.contains n with
        | true => acc
        | false => acc ++ [n]
      | none => acc
    if limit ≤ acc1.length then acc1 else scanTools limit rest acc1

/- find_recent_successful_tools (strategy.py lines 201-212). -/
def find_recent_successful_tools (memory_items : List MemoryItem) (limit : Nat := 5) :
    List String :=
  scanTools limit memory_items.reverse []

/- Specification-side helper: keep the first occurrence of each name. -/
def dedupFirst : List String → List String
  | [] => []
  | n :: rest => n :: dedupFirst (rest.filter (fun m => !(m == n)))
termination_by l => l.length
decreasing_by
  simp only [List.length_cons]
  exact Nat.lt_succ_of_le (List.length_filter_le _ _)

/- ## Trace and outcome classifiers -/

def eventStep : Event → Nat
  | Event.perception s _ => s
  | Event.planCall s _ => s
  | Event.sandboxCall s _ => s

def isPerceptionAt (s : Nat) : Event → Bool
  | Event.perception t _ => t == s
  | _ => false

def isRet : Outcome → Bool
  | Outcome.ret _ _ => true
  | _ => false

def isOkE (x : Except String String) : Bool :=
  match x with
  | Except.ok _ => true
  | Except.error _ => false

/- The extracted trailing content of a FURTHER_PROCESSING_REQUIRED: result
(loop.py line 90). -/
def fprContent (env : Env) (k : Nat) : String :=
  pyStrip (splitAfterMarker markerFPR (pyStrip (env.sandbox k)))

/- The context produced by the FURTHER_PROCESSING_REQUIRED branch (loop.py
lines 89-101): ledger entry still pending, override set, nothing else. -/
def fprCtx (env : Env) (k : Nat) (ctx : Ctx) : Ctx :=
  { ctx with
    task_progress := ctx.task_progress ++ [⟨ctx.step, "solve_sandbox", "pending"⟩],
    user_input_override := some (mkOverride ctx.user_input (fprContent env k)) }

/- The context produced by the implicit-final-answer branch (loop.py lines
105-122): ledger success, final answer wrapped, memory appended as success. -/
def implicitCtx (env : Env) (k : Nat) (ctx : Ctx) : Ctx :=
  addToolOutput
    (update_subtask_status
      { logSubtask ctx "solve_sandbox" "pending" with
        final_answer := some ("FINAL_ANSWER: " ++ pyStrip (env.sandbox k)) }
      "solve_sandbox" "success")
    "solve_sandbox" (pyStrip (env.sandbox k)) true

/- ## Concrete inputs for witnesses and counterexamples -/

def planSolve : String := "def solve():\n    return 1"

def ctx0 : Ctx := ⟨"orig task", none, 0, none, [], []⟩

def envFPR : Env :=
  ⟨fun _ => true, fun _ => planSolve,
   fun i => if i == 0 then "FURTHER_PROCESSING_REQUIRED: foo" else "FINAL_ANSWER: done"⟩

def ovFPR : String := mkOverride "orig task" "foo"

def envEmbedded : Env :=
  ⟨fun _ => true, fun _ => planSolve, fun _ => "see FURTHER_PROCESSING_REQUIRED: foo"⟩

def envFinal : Env := ⟨fun _ => true, fun _ => planSolve, fun _ => "FINAL_ANSWER: 42"⟩

def envPlain : Env := ⟨fun _ => true, fun _ => planSolve, fun _ => "an answer"⟩

def planEnvBadTemplate : PlanEnv :=
  ⟨Except.error "No such file or directory: prompts/decision_prompt_conservative.txt",
   fun _ => Except.ok "", fun _ => Except.ok ""⟩

def planEnvModelDown : PlanEnv :=
  ⟨Except.ok "TPL", fun _ => Except.ok "PROMPT", fun _ => Except.error "model unavailable"⟩

def sandboxEnvBoom : SandboxEnv := ⟨Except.error "boom"⟩

def searchHistory : List MemoryItem :=
  [⟨"tool_output", true, some "search"⟩,
   ⟨"run_metadata", true, none⟩,
   ⟨"tool_output", true, some "search"⟩]

def ctxOv : Ctx := ⟨"orig task", some "the override", 4, none, [], []⟩

def ctxLedger : Ctx :=
  ⟨"u", none, 3, none,
   [⟨3, "a", "pending"⟩, ⟨2, "solve_sandbox", "pending"⟩, ⟨3, "solve_sandbox", "pending"⟩], []⟩

/- ## Fallible-collaborator model of the loop

The total-oracle Env above models each inner iteration AFTER its awaited
collaborator calls have returned.  But two of those awaited calls can raise
in the source and nothing in loop.py catches them:
  - run_perception: perception.py calls load_prompt and .format at lines
    45-51, before its try block, so a prompt-template failure propagates
    through the await at loop.py line 39 (the tool-resolution at line 44 is
    part of the same pre-execution phase);
  - generate_plan: decision.py calls load_prompt and .format at lines 34-41,
    before its try block, so a template failure propagates through the await
    at loop.py line 56 (this is the C5 counterexample).
run_python_sandbox never raises (its single enclosing try, C4), so the
sandbox oracle stays total.  EnvE makes the two raising await points
explicit; an Except.error models the exception propagating into the loop. -/

structure EnvE where
  toolsNonempty : Nat → Except String Bool
  plan : Nat → Except String String
  sandbox : Nat → String

/- One pass through the inner while-body with fallible awaits: the loop body
adds no try/except, so an error from either awaited call aborts the whole
pass; once both values are in hand the rest of the iteration is exactly the
total-model iteration at those values (no later operation of the pass can
raise: the sandbox catches everything and the remaining code is marker
tests, string building, ledger and memory updates). -/
def innerIterE (env : EnvE) (k : Nat) (ctx : Ctx) : Except String (Outcome × List Event) :=
  match env.toolsNonempty k with
  | Except.error e => Except.error e
  | Except.ok false =>
    Except.ok (Outcome.brk ctx, [Event.perception ctx.step (effInput ctx)])
  | Except.ok true =>
    match env.plan k with
    | Except.error e => Except.error e
    | Except.ok p =>
      Except.ok (innerIter ⟨fun _ => true, fun _ => p, fun _ => env.sandbox k⟩ k ctx)

def runInnerE (env : EnvE) (k : Nat) : Nat → Ctx → Except String InnerRes
  | 0, ctx => Except.ok ⟨none, ctx, k, []⟩
  | fuel + 1, ctx =>
    match innerIterE env k ctx with
    | Except.error e => Except.error e
    | Except.ok (Outcome.ret r c, evs) => Except.ok ⟨some r, c, k + 1, evs⟩
    | Except.ok (Outcome.brk c, evs) => Except.ok ⟨none, c, k + 1, evs⟩
    | Except.ok (Outcome.cont c, evs) =>
      match runInnerE env (k + 1) fuel c with
      | Except.error e => Except.error e
      | Except.ok rest => Except.ok ⟨rest.res, rest.ctx, rest.nextK, evs ++ rest.events⟩

def runOuterE (env : EnvE) (L : Nat) : Nat → Nat → Nat → Ctx → Except String RunRes
  | _, _, 0, ctx =>
    Except.ok ⟨⟨"done", maxStepsAnswer⟩, { ctx with final_answer := some maxStepsAnswer }, []⟩
  | k, stepIdx, rem + 1, ctx =>
    match runInnerE env k (L + 1) { ctx with step := stepIdx } with
    | Except.error e => Except.error e
    | Except.ok inner =>
      match inner.res with
      | some r => Except.ok ⟨r, inner.ctx, inner.events⟩
      | none =>
        match runOuterE env L inner.nextK (stepIdx + 1) rem inner.ctx with
        | Except.error e => Except.error e
        | Except.ok rest => Except.ok ⟨rest.result, rest.ctx, inner.events ++ rest.events⟩

/- AgentLoop.run over fallible collaborators: an Except.error is an
exception reaching run's caller. -/
def AgentLoopE.run (env : EnvE) (max_steps max_lifelines_per_step : Nat) (ctx : Ctx) :
    Except String RunRes :=
  runOuterE env max_lifelines_per_step 0 0 max_steps ctx

def isOkRun (x : Except String RunRes) : Bool :=
  match x with
  | Except.ok _ => true
  | Except.error _ => false

/- A fallible environment whose first planning call raises the template
failure of C5, with tools resolving fine. -/
def envERaise : EnvE :=
  ⟨fun _ => Except.ok true,
   fun _ => Except.error "No such file or directory: prompts/decision_prompt_conservative.txt",
   fun _ => "FINAL_ANSWER: done"⟩

/- A fallible environment that never raises, agreeing with envFinal. -/
def envEFinal : EnvE :=
  ⟨fun _ => Except.ok true, fun _ => Except.ok planSolve, fun _ => "FINAL_ANSWER: 42"⟩

/- ## Helper lemmas on the string primitives -/

theorem data_append (a b : String) : (a ++ b).data = a.data ++ b.data := by
  cases a
  cases b
  rfl

theorem isPrefixOf_self_append (p t : List Char) : p.isPrefixOf (p ++ t) = true := by
  induction p with
  | nil => cases t <;> rfl
  | cons c cs ih => simp [List.isPrefixOf, ih]

theorem isPrefixOf_exists (p : List Char) :
    ∀ l : List Char, p.isPrefixOf l = true → ∃ t, l = p ++ t := by
  induction p with
  | nil => exact fun l _ => ⟨l, rfl⟩
  | cons c cs ih =>
    intro l h
    cases l with
    | nil => simp [List.isPrefixOf] at h
    | cons d ds =>
      simp only [List.isPrefixOf, Bool.and_eq_true, beq_iff_eq] at h
      obtain ⟨h1, h2⟩ := h
      obtain ⟨t, ht⟩ := ih ds h2
      exact ⟨t, by simp [h1, ht]⟩

theorem hasSubstrList_nil_pat (l : List Char) : hasSubstrList [] l = true := by
  cases l <;> simp [hasSubstrList, List.isPrefixOf, List.isEmpty]

theorem hasSubstr_of_split (pat pre post : List Char) :
    hasSubstrList pat (pre ++ (pat ++ post)) = true := by
  induction pre with
  | nil =>
    cases pat with
    | nil => simpa using hasSubstrList_nil_pat post
    | cons c cs => simp [hasSubstrList, isPrefixOf_self_append]
  | cons d ds ih => simp [hasSubstrList, ih]

theorem mkOverride_contains_user (u c : String) :
    pyContains (mkOverride u c) u = true := by
  unfold pyContains mkOverride
  have h := hasSubstr_of_split u.data ("Original user task: ").data
    (("\n\nYour last tool produced this result:\n\n" ++ c ++
      "\n\nIf this fully answers the task, return:\nFINAL_ANSWER: your answer\n\nOtherwise, return the next FUNCTION_CALL.").data)
  simpa [data_append, List.append_assoc] using h

theorem mkOverride_contains_content (u c : String) :
    pyContains (mkOverride u c) c = true := by
  unfold pyContains mkOverride
  have h := hasSubstr_of_split c.data
    (("Original user task: " ++ u ++ "\n\nYour last tool produced this result:\n\n").data)
    (("\n\nIf this fully answers the task, return:\nFINAL_ANSWER: your answer\n\nOtherwise, return the next FUNCTION_CALL.").data)
  simpa [data_append, List.append_assoc] using h

/- A string starting with the FURTHER_PROCESSING_REQUIRED marker cannot also
start with the FINAL_ANSWER marker (they differ at the second character). -/
theorem startsFPR_not_final (s : String) (h : pyStartsWith s markerFPR = true) :
    pyStartsWith s markerFinal = false := by
  obtain ⟨t, ht⟩ := isPrefixOf_exists _ _ h
  unfold pyStartsWith at *
  rw [ht]
  rfl

/- ## C3: the per-plan tool-call budget -/

/-- C3: within one sandbox execution, the SandboxMCP handle forwards the
first five tool invocations to the real dispatcher (call_count and
dispatcher_calls both reach 5), while the sixth invocation fails with an
error message containing "Exceeded max tool calls" without reaching the
dispatcher (the error branch returns before the dispatcher oracle is
consulted), aborting the whole execution of a six-call plan. -/
theorem C3_tool_budget (dispatcher : Nat → String) :
    runToolCalls dispatcher 5 ⟨0, 0⟩ = Except.ok ⟨5, 5⟩ ∧
    call_tool dispatcher ⟨5, 5⟩ =
      Except.error "Exceeded max tool calls (5) in solve() plan." ∧
    runToolCalls dispatcher 6 ⟨0, 0⟩ =
      Except.error "Exceeded max tool calls (5) in solve() plan." ∧
    pyContains "Exceeded max tool calls (5) in solve() plan." "Exceeded max tool calls" = true := by
  refine ⟨rfl, rfl, rfl, by decide⟩

/- ## C4: the sandbox absorbs every exception -/

/-- C4: run_python_sandbox is a total String-valued function of the
exec/solve/normalize oracle: whenever the body raises (Except.error e) the
caller receives the string "[sandbox error: " ++ e ++ "]", and whenever the
body succeeds the caller receives its string; no exception propagates. -/
theorem C4_sandbox_no_propagation (env : SandboxEnv) :
    (∀ e, sandboxBody env = Except.error e →
      run_python_sandbox env = "[sandbox error: " ++ e ++ "]") ∧
    (∀ s, sandboxBody env = Except.ok s → run_python_sandbox env = s) := by
  constructor
  · intro e h
    simp [run_python_sandbox, h]
  · intro s h
    simp [run_python_sandbox, h]

/-- Witness for C4 at a concrete failing oracle. -/
theorem C4_sandbox_no_propagation_witness :
    sandboxBody sandboxEnvBoom = Except.error "boom" ∧
    run_python_sandbox sandboxEnvBoom = "[sandbox error: boom]" :=
  ⟨rfl, (C4_sandbox_no_propagation sandboxEnvBoom).1 "boom" rfl⟩

/- ## C5: the plan generator boundary -/

/-- C5 counterexample: a prompt-template loading failure is NOT converted to
a terminal string — decision.py calls load_prompt and .format outside its
try block, so the exception propagates to the caller, contradicting the
claim that template loading and substitution failures also degrade to a
terminal-looking string. -/
theorem C5_template_exception_counterexample :
    generate_plan planEnvBadTemplate =
      Except.error "No such file or directory: prompts/decision_prompt_conservative.txt" ∧
    isOkE (generate_plan planEnvBadTemplate) = false :=
  ⟨rfl, rfl⟩

/-- C5 amended: once the prompt template loads and formats successfully, the
plan generator never raises: a model-call failure yields the literal
"FINAL_ANSWER: [unknown]", a response without a recognizable solve()
definition (after fence stripping) yields
"FINAL_ANSWER: [Could not generate valid solve()]", and a recognized
response is returned as-is. -/
theorem C5_plan_generator_amended (env : PlanEnv) (tmpl prompt : String)
    (h1 : env.loadPrompt = Except.ok tmpl)
    (h2 : env.formatTemplate tmpl = Except.ok prompt) :
    (∀ e, env.modelResponse prompt = Except.error e →
      generate_plan env = Except.ok "FINAL_ANSWER: [unknown]") ∧
    (∀ raw, env.modelResponse prompt = Except.ok raw →
      matchesSolve (postprocessRaw raw) = false →
      generate_plan env = Except.ok "FINAL_ANSWER: [Could not generate valid solve()]") ∧
    (∀ raw, env.modelResponse prompt = Except.ok raw →
      matchesSolve (postprocessRaw raw) = true →
      generate_plan env = Except.ok (postprocessRaw raw)) := by
  refine ⟨?_, ?_, ?_⟩
  · intro e h3
    simp [generate_plan, h1, h2, h3]
  · intro raw h3 h4
    simp [generate_plan, h1, h2, h3, h4]
  · intro raw h3 h4
    simp [generate_plan, h1, h2, h3, h4]

/-- Witness for C5 amended at a concrete model-failure oracle. -/
theorem C5_plan_generator_amended_witness :
    planEnvModelDown.loadPrompt = Except.ok "TPL" ∧
    planEnvModelDown.formatTemplate "TPL" = Except.ok "PROMPT" ∧
    planEnvModelDown.modelResponse "PROMPT" = Except.error "model unavailable" ∧
    generate_plan planEnvModelDown = Except.ok "FINAL_ANSWER: [unknown]" :=
  ⟨rfl, rfl, rfl,
    (C5_plan_generator_amended planEnvModelDown "TPL" "PROMPT" rfl rfl).1 "model unavailable" rfl⟩

/- ## C7: result normalization -/

/-- C7: the sandbox normalizes solve() return values exactly as specified: a
mapping with a "result" key yields that value stringified, any other mapping
yields its full JSON serialization, a sequence yields its elements'
string forms joined by single spaces, anything else yields its plain string
form; in particular a mapping with key result and value 7 yields "7" and the
sequence 1, 2, 3 yields "1 2 3". -/
theorem C7_normalize :
    (∀ kvs v, lookupKey "result" kvs = some v →
      normalizeResult (PyVal.pdict kvs) = pyStr v) ∧
    (∀ kvs, lookupKey "result" kvs = none →
      normalizeResult (PyVal.pdict kvs) = jsonDumps (PyVal.pdict kvs)) ∧
    (∀ xs, normalizeResult (PyVal.plist xs) = joinWith " " (xs.map pyStr)) ∧
    (∀ v : PyVal, (∀ xs, v ≠ PyVal.plist xs) → (∀ kvs, v ≠ PyVal.pdict kvs) →
      normalizeResult v = pyStr v) ∧
    normalizeResult (PyVal.pdict [("result", PyVal.pint 7)]) = "7" ∧
    normalizeResult (PyVal.plist [PyVal.pint 1, PyVal.pint 2, PyVal.pint 3]) = "1 2 3" := by
  refine ⟨?_, ?_, ?_, ?_, by decide, by decide⟩
  · intro kvs v h
    simp [normalizeResult, h]
  · intro kvs h
    simp [normalizeResult, h]
  · intro xs
    rfl
  · intro v h1 h2
    cases v with
    | plist xs => exact absurd rfl (h1 xs)
    | pdict kvs => exact absurd rfl (h2 kvs)
    | pstr s => rfl
    | pint n => rfl
    | pbool b => rfl
    | pnone => rfl

/-- Witness for C7 at a concrete mapping with a "result" key. -/
theorem C7_normalize_witness :
    lookupKey "result" [("result", PyVal.pint 7)] = some (PyVal.pint 7) ∧
    normalizeResult (PyVal.pdict [("result", PyVal.pint 7)]) = pyStr (PyVal.pint 7) :=
  ⟨rfl, C7_normalize.1 [("result", PyVal.pint 7)] (PyVal.pint 7) rfl⟩

/- ## C2: the FURTHER_PROCESSING_REQUIRED branch -/

/-- C2 counterexample: running the loop with max_steps 2, lifelines 0 on a
first sandbox result "FURTHER_PROCESSING_REQUIRED: foo": step 0 issues
exactly one perception call (so no inner retry happened within step 0), the
event after the step-0 sandbox call is the perception of step 1 (the retry
happens in the NEXT outer step) carrying the override, and the branch leaves
memory untouched (the outcome is not persisted) — contradicting the claim
that the branch persists the outcome and retries within the same step. -/
theorem C2_fpr_same_step_counterexample :
    (AgentLoop.run envFPR 2 0 ctx0).events.get? 2 = some (Event.sandboxCall 0 planSolve) ∧
    (AgentLoop.run envFPR 2 0 ctx0).events.get? 3 = some (Event.perception 1 ovFPR) ∧
    ((AgentLoop.run envFPR 2 0 ctx0).events.filter (isPerceptionAt 0)).length = 1 ∧
    (innerIter envFPR 0 ctx0).1 = Outcome.brk (fprCtx envFPR 0 ctx0) ∧
    (fprCtx envFPR 0 ctx0).memory = [] := by
  refine ⟨by decide, by decide, by decide, by decide, by decide⟩

/-- C2 amended: when the (stripped) sandbox result starts with
"FURTHER_PROCESSING_REQUIRED:", the inner iteration does not consume a
lifeline and logs the outcome, but does not persist it to memory (the ledger
entry stays pending); it sets the override input embedding the original user
task and the extracted trailing content, and exits the inner while-loop via
break, so the retry with the override as effective input happens in the next
outer step (if any remain), not within the same step. -/
theorem C2_fpr_break_amended (env : Env) (k : Nat) (ctx : Ctx)
    (h1 : env.toolsNonempty k = true)
    (h2 : matchesSolve (env.plan k) = true)
    (h3 : pyStartsWith (pyStrip (env.sandbox k)) markerFPR = true) :
    innerIter env k ctx =
      (Outcome.brk (fprCtx env k ctx),
       [Event.perception ctx.step (effInput ctx),
        Event.planCall ctx.step ctx.user_input,
        Event.sandboxCall ctx.step (env.plan k)]) ∧
    (fprCtx env k ctx).memory = ctx.memory ∧
    effInput (fprCtx env k ctx) = mkOverride ctx.user_input (fprContent env k) ∧
    pyContains (mkOverride ctx.user_input (fprContent env k)) ctx.user_input = true ∧
    pyContains (mkOverride ctx.user_input (fprContent env k)) (fprContent env k) = true := by
  have hf : pyStartsWith (pyStrip (env.sandbox k)) markerFinal = false :=
    startsFPR_not_final _ h3
  refine ⟨?_, rfl, rfl, mkOverride_contains_user _ _, mkOverride_contains_content _ _⟩
  unfold innerIter innerOutcome innerEvents fprCtx fprContent
  simp only [h1, h2, hf, h3]
  rfl

/-- Witness for C2 amended at the concrete FPR environment. -/
theorem C2_fpr_break_amended_witness :
    envFPR.toolsNonempty 0 = true ∧
    matchesSolve (envFPR.plan 0) = true ∧
    pyStartsWith (pyStrip (envFPR.sandbox 0)) markerFPR = true ∧
    (innerIter envFPR 0 ctx0).1 = Outcome.brk (fprCtx envFPR 0 ctx0) ∧
    effInput (fprCtx envFPR 0 ctx0) = mkOverride "orig task" "foo" := by
  refine ⟨rfl, by decide, by decide, ?_, ?_⟩
  · rw [(C2_fpr_break_amended envFPR 0 ctx0 rfl (by decide) (by decide)).1]
  · exact (C2_fpr_break_amended envFPR 0 ctx0 rfl (by decide) (by decide)).2.2.1.trans (by decide)

/- ## C6: the implicit-final-answer branch -/

/-- C6 counterexample: a non-empty sandbox result that starts with none of
the three markers but CONTAINS "FURTHER_PROCESSING_REQUIRED:" further inside
is wrapped and persisted as success, yet the loop does not return: the
iteration ends in the lifeline-consuming continue branch (loop.py line 124
tests substring containment, not only the prefix), contradicting the claim
that any such result immediately returns the terminal mapping. -/
theorem C6_embedded_marker_counterexample :
    pyStrip (envEmbedded.sandbox 0) = "see FURTHER_PROCESSING_REQUIRED: foo" ∧
    pyStartsWith "see FURTHER_PROCESSING_REQUIRED: foo" markerFinal = false ∧
    pyStartsWith "see FURTHER_PROCESSING_REQUIRED: foo" markerFPR = false ∧
    pyStartsWith "see FURTHER_PROCESSING_REQUIRED: foo" markerSandboxErr = false ∧
    isRet (innerIter envEmbedded 0 ctx0).1 = false ∧
    (innerIter envEmbedded 0 ctx0).1 = Outcome.cont (implicitCtx envEmbedded 0 ctx0) ∧
    (implicitCtx envEmbedded 0 ctx0).memory =
      [⟨"solve_sandbox", "see FURTHER_PROCESSING_REQUIRED: foo", true⟩] := by
  refine ⟨by decide, by decide, by decide, by decide, by decide, by decide, by decide⟩

/-- C6 amended: when the (stripped, non-empty) sandbox result starts with
none of the three markers AND does not contain
"FURTHER_PROCESSING_REQUIRED:" anywhere, the loop wraps it as
"FINAL_ANSWER: result", persists it to memory as success, and immediately
returns the terminal done mapping with the wrapped answer; if the marker
does occur as an inner substring the result is still wrapped and persisted
as success but a lifeline is consumed instead of returning. -/
theorem C6_implicit_final_amended (env : Env) (k : Nat) (ctx : Ctx)
    (h1 : env.toolsNonempty k = true)
    (h2 : matchesSolve (env.plan k) = true)
    (_hne : pyStrip (env.sandbox k) ≠ "")
    (hf : pyStartsWith (pyStrip (env.sandbox k)) markerFinal = false)
    (hp : pyStartsWith (pyStrip (env.sandbox k)) markerFPR = false)
    (hs : pyStartsWith (pyStrip (env.sandbox k)) markerSandboxErr = false) :
    (pyContains (pyStrip (env.sandbox k)) markerFPR = false →
      innerIter env k ctx =
        (Outcome.ret ⟨"done", "FINAL_ANSWER: " ++ pyStrip (env.sandbox k)⟩
          (implicitCtx env k ctx),
         [Event.perception ctx.step (effInput ctx),
          Event.planCall ctx.step ctx.user_input,
          Event.sandboxCall ctx.step (env.plan k)])) ∧
    (pyContains (pyStrip (env.sandbox k)) markerFPR = true →
      innerIter env k ctx =
        (Outcome.cont (implicitCtx env k ctx),
         [Event.perception ctx.step (effInput ctx),
          Event.planCall ctx.step ctx.user_input,
          Event.sandboxCall ctx.step (env.plan k)])) ∧
    (implicitCtx env k ctx).memory =
      ctx.memory ++ [⟨"solve_sandbox", pyStrip (env.sandbox k), true⟩] ∧
    (implicitCtx env k ctx).final_answer =
      some ("FINAL_ANSWER: " ++ pyStrip (env.sandbox k)) := by
  refine ⟨?_, ?_, rfl, rfl⟩
  · intro hc
    unfold innerIter innerOutcome innerEvents implicitCtx
    simp only [h1, h2, hf, hp, hs, hc]
  · intro hc
    unfold innerIter innerOutcome innerEvents implicitCtx
    simp only [h1, h2, hf, hp, hs, hc]

/-- Witness for C6 amended at the concrete "FINAL_ANSWER: 42"-free result. -/
theorem C6_implicit_final_amended_witness :
    pyStrip (envPlain.sandbox 0) = "an answer" ∧
    pyContains "an answer" markerFPR = false ∧
    (innerIter envPlain 0 ctx0).1 =
      Outcome.ret ⟨"done", "FINAL_ANSWER: an answer"⟩ (implicitCtx envPlain 0 ctx0) := by
  refine ⟨by decide, by decide, ?_⟩
  have h := (C6_implicit_final_amended envPlain 0 ctx0 rfl (by decide) (by decide)
    (by decide) (by decide) (by decide)).1 (by decide)
  rw [h]
  rfl

/- ## C10: the subtask-status frame property -/

theorem updateSubtaskAux_no_match (tool : String) (step : Nat) (status : String) :
    ∀ m : List Subtask, (∀ it ∈ m, ¬(it.tool = tool ∧ it.step = step)) →
      updateSubtaskAux tool step status m = m := by
  intro m
  induction m with
  | nil => intro _; rfl
  | cons it rest ih =>
    intro h
    have hb : (it.tool == tool && it.step == step) = false := by
      cases hbt : (it.tool == tool && it.step == step)
      · rfl
      · exact absurd (by simpa [Bool.and_eq_true, beq_iff_eq] using hbt)
          (h it (List.mem_cons_self _ _))
    simp [updateSubtaskAux, hb, ih (fun x hx => h x (List.mem_cons_of_mem _ hx))]

theorem updateSubtaskAux_found (tool : String) (step : Nat) (status : String) :
    ∀ (m1 : List Subtask) (it : Subtask) (m2 : List Subtask),
      (∀ x ∈ m1, ¬(x.tool = tool ∧ x.step = step)) →
      it.tool = tool → it.step = step →
      updateSubtaskAux tool step status (m1 ++ it :: m2) =
        m1 ++ { it with status := status } :: m2 := by
  intro m1
  induction m1 with
  | nil =>
    intro it m2 _ ht hs
    have hb : (it.tool == tool && it.step == step) = true := by simp [ht, hs]
    simp [updateSubtaskAux, hb]
  | cons x rest ih =>
    intro it m2 h ht hs
    have hb : (x.tool == tool && x.step == step) = false := by
      cases hbt : (x.tool == tool && x.step == step)
      · rfl
      · exact absurd (by simpa [Bool.and_eq_true, beq_iff_eq] using hbt)
          (h x (List.mem_cons_self _ _))
    simp [updateSubtaskAux, hb,
      ih it m2 (fun y hy => h y (List.mem_cons_of_mem _ hy)) ht hs]

/-- C10: update_subtask_status changes at most one ledger entry — the most
recently appended entry whose tool and step match — and only its status
field; the rest of the ledger, its length and order, and every other context
field are unchanged, and with no matching entry the context is returned
intact. -/
theorem C10_update_subtask_frame (ctx : Ctx) (tool status : String) :
    ((∀ it ∈ ctx.task_progress, ¬(it.tool = tool ∧ it.step = ctx.step)) →
      update_subtask_status ctx tool status = ctx) ∧
    (∀ (l1 : List Subtask) (it : Subtask) (l2 : List Subtask),
      ctx.task_progress = l1 ++ it :: l2 →
      it.tool = tool → it.step = ctx.step →
      (∀ x ∈ l2, ¬(x.tool = tool ∧ x.step = ctx.step)) →
      update_subtask_status ctx tool status =
        { ctx with task_progress := l1 ++ { it with status := status } :: l2 }) := by
  constructor
  · intro h
    unfold update_subtask_status
    rw [updateSubtaskAux_no_match tool ctx.step status ctx.task_progress.reverse
      (fun x hx => h x (List.mem_reverse.mp hx))]
    simp
  · intro l1 it l2 hl ht hs h2
    unfold update_subtask_status
    rw [hl]
    rw [show (l1 ++ it :: l2).reverse = l2.reverse ++ it :: l1.reverse by
      simp [List.reverse_append]]
    rw [updateSubtaskAux_found tool ctx.step status l2.reverse it l1.reverse
      (fun x hx => h2 x (List.mem_reverse.mp hx)) ht hs]
    simp [List.reverse_append]

/-- Witness for C10: the most recent matching ledger entry (and only it) is
updated. -/
theorem C10_update_subtask_frame_witness :
    ctxLedger.task_progress =
      [(⟨3, "a", "pending"⟩ : Subtask), ⟨2, "solve_sandbox", "pending"⟩] ++
        (⟨3, "solve_sandbox", "pending"⟩ : Subtask) :: [] ∧
    update_subtask_status ctxLedger "solve_sandbox" "success" =
      { ctxLedger with task_progress :=
          [⟨3, "a", "pending"⟩, ⟨2, "solve_sandbox", "pending"⟩,
           ⟨3, "solve_sandbox", "success"⟩] } := by
  refine ⟨rfl, ?_⟩
  have h := (C10_update_subtask_frame ctxLedger "solve_sandbox" "success").2
    [⟨3, "a", "pending"⟩, ⟨2, "solve_sandbox", "pending"⟩]
    ⟨3, "solve_sandbox", "pending"⟩ [] rfl rfl rfl (by simp)
  rw [h]
  rfl

/- ## Structural lemmas for the loop traces -/

theorem eventStep_of_perceptionAt (s : Nat) (e : Event)
    (h : isPerceptionAt s e = true) : eventStep e = s := by
  cases e with
  | perception t i => simpa [isPerceptionAt, eventStep, beq_iff_eq] using h
  | planCall t u => simp [isPerceptionAt] at h
  | sandboxCall t p => simp [isPerceptionAt] at h

theorem innerEvents_step (env : Env) (k : Nat) (ctx : Ctx) :
    ∀ e ∈ innerEvents env k ctx, eventStep e = ctx.step := by
  intro e he
  unfold innerEvents at he
  cases h1 : env.toolsNonempty k with
  | false =>
    rw [h1] at he
    simp only [List.mem_cons, List.not_mem_nil, or_false] at he
    rw [he]
    rfl
  | true =>
    rw [h1] at he
    cases h2 : matchesSolve (env.plan k) with
    | false =>
      rw [h2] at he
      simp only [List.mem_cons, List.not_mem_nil, or_false] at he
      rcases he with rfl | rfl <;> rfl
    | true =>
      rw [h2] at he
      simp only [List.mem_cons, List.not_mem_nil, or_false] at he
      rcases he with rfl | rfl | rfl <;> rfl

theorem innerEvents_perceptionAt (env : Env) (k : Nat) (ctx : Ctx) (s : Nat) :
    ((innerEvents env k ctx).filter (isPerceptionAt s)).length ≤ 1 := by
  unfold innerEvents
  cases h1 : env.toolsNonempty k with
  | false =>
    cases h : (ctx.step == s) <;> simp [List.filter, isPerceptionAt, h]
  | true =>
    cases h2 : matchesSolve (env.plan k) with
    | false => cases h : (ctx.step == s) <;> simp [List.filter, isPerceptionAt, h]
    | true => cases h : (ctx.step == s) <;> simp [List.filter, isPerceptionAt, h]

theorem innerEvents_planCall (env : Env) (k : Nat) (ctx : Ctx) :
    ∀ s u, Event.planCall s u ∈ innerEvents env k ctx → u = ctx.user_input := by
  intro s u he
  unfold innerEvents at he
  cases h1 : env.toolsNonempty k with
  | false =>
    rw [h1] at he
    simp at he
  | true =>
    rw [h1] at he
    cases h2 : matchesSolve (env.plan k) with
    | false =>
      rw [h2] at he
      simp only [List.mem_cons, List.not_mem_nil, or_false] at he
      rcases he with he | he <;> simp_all
    | true =>
      rw [h2] at he
      simp only [List.mem_cons, List.not_mem_nil, or_false] at he
      rcases he with he | he | he <;> simp_all

theorem innerOutcome_step (env : Env) (k : Nat) (ctx : Ctx) :
    (outcomeCtx (innerOutcome env k ctx)).step = ctx.step := by
  unfold innerOutcome
  dsimp only
  cases env.toolsNonempty k
  · rfl
  · cases matchesSolve (env.plan k)
    · rfl
    · cases pyStartsWith (pyStrip (env.sandbox k)) markerFinal
      · cases pyStartsWith (pyStrip (env.sandbox k)) markerFPR
        · cases pyStartsWith (pyStrip (env.sandbox k)) markerSandboxErr
          · cases pyContains (pyStrip (env.sandbox k)) markerFPR
            · rfl
            · rfl
          · rfl
        · rfl
      · rfl

theorem innerOutcome_user_input (env : Env) (k : Nat) (ctx : Ctx) :
    (outcomeCtx (innerOutcome env k ctx)).user_input = ctx.user_input := by
  unfold innerOutcome
  dsimp only
  cases env.toolsNonempty k
  · rfl
  · cases matchesSolve (env.plan k)
    · rfl
    · cases pyStartsWith (pyStrip (env.sandbox k)) markerFinal
      · cases pyStartsWith (pyStrip (env.sandbox k)) markerFPR
        · cases pyStartsWith (pyStrip (env.sandbox k)) markerSandboxErr
          · cases pyContains (pyStrip (env.sandbox k)) markerFPR
            · rfl
            · rfl
          · rfl
        · rfl
      · rfl

/- The outcome-side statement first, so that case analysis works in the
goal rather than in a hypothesis. -/
theorem innerOutcome_status_match (env : Env) (k : Nat) (ctx : Ctx) :
    (match innerOutcome env k ctx with
     | Outcome.ret r _ => r.status = "done"
     | _ => True) := by
  unfold innerOutcome
  dsimp only
  cases env.toolsNonempty k
  · trivial
  · cases matchesSolve (env.plan k)
    · trivial
    · cases pyStartsWith (pyStrip (env.sandbox k)) markerFinal
      · cases pyStartsWith (pyStrip (env.sandbox k)) markerFPR
        · cases pyStartsWith (pyStrip (env.sandbox k)) markerSandboxErr
          · cases pyContains (pyStrip (env.sandbox k)) markerFPR
            · rfl
            · trivial
          · trivial
        · trivial
      · rfl

theorem innerOutcome_status (env : Env) (k : Nat) (ctx : Ctx) :
    ∀ r c, innerOutcome env k ctx = Outcome.ret r c → r.status = "done" := by
  intro r c h
  have hm := innerOutcome_status_match env k ctx
  rw [h] at hm
  exact hm

theorem runInner_spec (env : Env) :
    ∀ (fuel k : Nat) (ctx : Ctx),
      (∀ e ∈ (runInner env k fuel ctx).events, eventStep e = ctx.step) ∧
      (∀ s, (((runInner env k fuel ctx).events).filter (isPerceptionAt s)).length ≤ fuel) ∧
      (runInner env k fuel ctx).ctx.user_input = ctx.user_input ∧
      (∀ s u, Event.planCall s u ∈ (runInner env k fuel ctx).events → u = ctx.user_input) ∧
      (∀ r, (runInner env k fuel ctx).res = some r → r.status = "done") := by
  intro fuel
  induction fuel with
  | zero =>
    intro k ctx
    refine ⟨?_, ?_, rfl, ?_, ?_⟩
    · intro e he
      simp [runInner] at he
    · intro s
      simp [runInner]
    · intro s u he
      simp [runInner] at he
    · intro r hr
      simp [runInner] at hr
  | succ fuel ih =>
    intro k ctx
    cases ho : innerOutcome env k ctx with
    | ret r c =>
      have hrw : runInner env k (fuel + 1) ctx = ⟨some r, c, k + 1, innerEvents env k ctx⟩ := by
        simp [runInner, innerIter, ho]
      rw [hrw]
      refine ⟨innerEvents_step env k ctx, ?_, ?_, innerEvents_planCall env k ctx, ?_⟩
      · intro s
        exact le_trans (innerEvents_perceptionAt env k ctx s) (Nat.succ_le_succ (Nat.zero_le _))
      · have := innerOutcome_user_input env k ctx
        rw [ho] at this
        exact this
      · intro r' hr'
        have h9 : r = r' := by simpa using hr'
        rw [← h9]
        exact innerOutcome_status env k ctx r c ho
    | brk c =>
      have hrw : runInner env k (fuel + 1) ctx = ⟨none, c, k + 1, innerEvents env k ctx⟩ := by
        simp [runInner, innerIter, ho]
      rw [hrw]
      refine ⟨innerEvents_step env k ctx, ?_, ?_, innerEvents_planCall env k ctx, ?_⟩
      · intro s
        exact le_trans (innerEvents_perceptionAt env k ctx s) (Nat.succ_le_succ (Nat.zero_le _))
      · have := innerOutcome_user_input env k ctx
        rw [ho] at this
        exact this
      · intro r' hr'
        simp at hr'
    | cont c =>
      have hrw : runInner env k (fuel + 1) ctx =
          ⟨(runInner env (k + 1) fuel c).res, (runInner env (k + 1) fuel c).ctx,
           (runInner env (k + 1) fuel c).nextK,
           innerEvents env k ctx ++ (runInner env (k + 1) fuel c).events⟩ := by
        simp [runInner, innerIter, ho]
      have hstep : c.step = ctx.step := by
        have := innerOutcome_step env k ctx
        rw [ho] at this
        exact this
      have huser : c.user_input = ctx.user_input := by
        have := innerOutcome_user_input env k ctx
        rw [ho] at this
        exact this
      obtain ⟨ih1, ih2, ih3, ih4, ih5⟩ := ih (k + 1) c
      rw [hrw]
      refine ⟨?_, ?_, ?_, ?_, ?_⟩
      · intro e he
        rcases List.mem_append.mp he with he | he
        · exact innerEvents_step env k ctx e he
        · rw [ih1 e he, hstep]
      · intro s
        rw [List.filter_append, List.length_append]
        have h9 := Nat.add_le_add (innerEvents_perceptionAt env k ctx s) (ih2 s)
        omega
      · rw [ih3, huser]
      · intro s u he
        rcases List.mem_append.mp he with he | he
        · exact innerEvents_planCall env k ctx s u he
        · rw [ih4 s u he, huser]
      · exact ih5

theorem runOuter_spec (env : Env) (L : Nat) :
    ∀ (rem stepIdx k : Nat) (ctx : Ctx),
      (runOuter env L k stepIdx rem ctx).result.status = "done" ∧
      (∀ e ∈ (runOuter env L k stepIdx rem ctx).events,
        stepIdx ≤ eventStep e ∧ eventStep e < stepIdx + rem) ∧
      (∀ s, (((runOuter env L k stepIdx rem ctx).events).filter (isPerceptionAt s)).length ≤ L + 1) ∧
      (∀ s u, Event.planCall s u ∈ (runOuter env L k stepIdx rem ctx).events →
        u = ctx.user_input) := by
  intro rem
  induction rem with
  | zero =>
    intro stepIdx k ctx
    refine ⟨rfl, ?_, ?_, ?_⟩
    · intro e he
      simp [runOuter] at he
    · intro s
      simp [runOuter]
    · intro s u he
      simp [runOuter] at he
  | succ rem ih =>
    intro stepIdx k ctx
    obtain ⟨ri1, ri2, ri3, ri4, ri5⟩ := runInner_spec env (L + 1) k { ctx with step := stepIdx }
    have hstep0 : ({ ctx with step := stepIdx } : Ctx).step = stepIdx := rfl
    cases hres : (runInner env k (L + 1) { ctx with step := stepIdx }).res with
    | some r =>
      have hrw : runOuter env L k stepIdx (rem + 1) ctx =
          ⟨r, (runInner env k (L + 1) { ctx with step := stepIdx }).ctx,
           (runInner env k (L + 1) { ctx with step := stepIdx }).events⟩ := by
        simp [runOuter, hres]
      rw [hrw]
      refine ⟨ri5 r hres, ?_, ri2, ri4⟩
      intro e he
      rw [ri1 e he]
      omega
    | none =>
      have hrw : runOuter env L k stepIdx (rem + 1) ctx =
          ⟨(runOuter env L (runInner env k (L + 1) { ctx with step := stepIdx }).nextK
              (stepIdx + 1) rem (runInner env k (L + 1) { ctx with step := stepIdx }).ctx).result,
           (runOuter env L (runInner env k (L + 1) { ctx with step := stepIdx }).nextK
              (stepIdx + 1) rem (runInner env k (L + 1) { ctx with step := stepIdx }).ctx).ctx,
           (runInner env k (L + 1) { ctx with step := stepIdx }).events ++
             (runOuter env L (runInner env k (L + 1) { ctx with step := stepIdx }).nextK
              (stepIdx + 1) rem (runInner env k (L + 1) { ctx with step := stepIdx }).ctx).events⟩ := by
        simp [runOuter, hres]
      obtain ⟨ih1, ih2, ih3, ih4⟩ := ih (stepIdx + 1)
        (runInner env k (L + 1) { ctx with step := stepIdx }).nextK
        (runInner env k (L + 1) { ctx with step := stepIdx }).ctx
      rw [hrw]
      refine ⟨ih1, ?_, ?_, ?_⟩
      · intro e he
        rcases List.mem_append.mp he with he | he
        · rw [ri1 e he]
          omega
        · have := ih2 e he
          omega
      · intro s
        rw [List.filter_append, List.length_append]
        by_cases hs : s = stepIdx
        · have hnil : ((runOuter env L (runInner env k (L + 1) { ctx with step := stepIdx }).nextK
              (stepIdx + 1) rem (runInner env k (L + 1) { ctx with step := stepIdx }).ctx).events).filter
              (isPerceptionAt s) = [] := by
            rw [List.filter_eq_nil_iff]
            intro e he hpe
            have h1 := eventStep_of_perceptionAt s e hpe
            have h2 := (ih2 e he).1
            omega
          rw [hnil]
          simpa using ri2 s
        · have hnil : ((runInner env k (L + 1) { ctx with step := stepIdx }).events).filter
              (isPerceptionAt s) = [] := by
            rw [List.filter_eq_nil_iff]
            intro e he hpe
            have h1 := eventStep_of_perceptionAt s e hpe
            have h2 := ri1 e he
            omega
          rw [hnil]
          simpa using ih3 s
      · intro s u he
        rcases List.mem_append.mp he with he | he
        · exact ri4 s u he
        · rw [ih4 s u he]
          exact ri3

/- ## C8: the memory fallback scan -/

theorem contains_append_one (acc : List String) (n m : String) :
    (acc ++ [n]).contains m = (acc.contains m || (m == n)) := by
  by_cases h1 : m ∈ acc <;> by_cases h2 : m = n <;> simp [h1, h2]

theorem scanTools_eq (limit : Nat) :
    ∀ (items : List MemoryItem) (acc : List String), acc.length < limit →
      scanTools limit items acc =
        acc ++ (dedupFirst ((items.filterMap nameOf).filter
          (fun m => !(acc.contains m)))).take (limit - acc.length) := by
  intro items
  induction items with
  | nil =>
    intro acc h
    simp [scanTools, dedupFirst]
  | cons item rest ih =>
    intro acc h
    cases hn : nameOf item with
    | none =>
      have hstep : scanTools limit (item :: rest) acc = scanTools limit rest acc := by
        simp only [scanTools, hn]
        rw [if_neg (Nat.not_le.mpr h)]
      rw [hstep, ih acc h]
      simp [List.filterMap_cons, hn]
    | some n =>
      cases hc : acc.contains n with
      | true =>
        have hstep : scanTools limit (item :: rest) acc = scanTools limit rest acc := by
          simp only [scanTools, hn, hc]
          rw [if_neg (Nat.not_le.mpr h)]
        rw [hstep, ih acc h]
        simp only [List.filterMap_cons, hn]
        rw [List.filter_cons_of_neg (by simp_all)]
      | false =>
        by_cases hlim : limit ≤ acc.length + 1
        · have heq : limit - acc.length = 1 := by omega
          have hstep : scanTools limit (item :: rest) acc = acc ++ [n] := by
            simp only [scanTools, hn, hc]
            rw [if_pos (by simpa using hlim)]
          rw [hstep]
          simp only [List.filterMap_cons, hn]
          rw [List.filter_cons_of_pos (by simp_all)]
          rw [dedupFirst, heq]
          simp
        · have hstep : scanTools limit (item :: rest) acc =
              scanTools limit rest (acc ++ [n]) := by
            simp only [scanTools, hn, hc]
            rw [if_neg (by simpa using hlim)]
          rw [hstep]
          rw [ih (acc ++ [n]) (by simp; omega)]
          simp only [List.filterMap_cons, hn]
          rw [List.filter_cons_of_pos (by simp_all)]
          rw [dedupFirst]
          have hlen : (acc ++ [n]).length = acc.length + 1 := by simp
          rw [hlen]
          have htake : limit - acc.length = (limit - (acc.length + 1)) + 1 := by omega
          rw [htake]
          rw [List.take_succ_cons]
          have hfilters :
              List.filter (fun m => !(m == n))
                (List.filter (fun m => !acc.contains m) (List.filterMap nameOf rest)) =
              List.filter (fun m => !((acc ++ [n]).contains m)) (List.filterMap nameOf rest) := by
            rw [List.filter_filter]
            apply List.filter_congr
            intro m _
            rw [contains_append_one]
            cases h1 : acc.contains m <;> cases h2 : (m == n) <;> simp [h1, h2]
          rw [hfilters]
          rw [← List.append_cons acc n]

/-- C8: find_recent_successful_tools scans the memory items in reverse
chronological order, collects the tool names of successful tool_output items
deduplicated with the most recent occurrence kept first, and stops once 5
distinct names are collected or the list is exhausted — it equals the
first-occurrence dedup of the reversed successful-name stream truncated at
5; in particular a history where tool "search" succeeded twice yields
exactly ["search"]. -/
theorem C8_find_recent_tools :
    (∀ items : List MemoryItem,
      find_recent_successful_tools items =
        (dedupFirst (items.reverse.filterMap nameOf)).take 5) ∧
    find_recent_successful_tools searchHistory = ["search"] := by
  constructor
  · intro items
    have h := scanTools_eq 5 items.reverse [] (by decide)
    unfold find_recent_successful_tools
    rw [h]
    rw [show (fun m : String => !(([] : List String).contains m)) =
      (fun _ : String => true) from rfl]
    rw [List.filter_eq_self.mpr (fun a _ => rfl)]
    rfl
  · decide

/- ## C1: termination, bounds, terminal shape — and exception propagation -/

/- One iteration of the total model depends only on the oracle values at its
own call index. -/
theorem innerIter_congr (env env' : Env) (k : Nat) (ctx : Ctx)
    (h1 : env.toolsNonempty k = env'.toolsNonempty k)
    (h2 : env.plan k = env'.plan k)
    (h3 : env.sandbox k = env'.sandbox k) :
    innerIter env k ctx = innerIter env' k ctx := by
  unfold innerIter innerOutcome innerEvents
  rw [h1, h2, h3]

/- When both awaited calls of an iteration return, the fallible iteration is
the total one. -/
theorem innerIterE_refines (envE : EnvE) (env : Env) (k : Nat) (ctx : Ctx)
    (h1 : envE.toolsNonempty k = Except.ok (env.toolsNonempty k))
    (h2 : envE.plan k = Except.ok (env.plan k))
    (h3 : envE.sandbox k = env.sandbox k) :
    innerIterE envE k ctx = Except.ok (innerIter env k ctx) := by
  cases b : env.toolsNonempty k with
  | false =>
    simp only [innerIterE, h1, b]
    unfold innerIter innerOutcome innerEvents
    rw [b]
  | true =>
    simp only [innerIterE, h1, b, h2]
    exact congrArg Except.ok (innerIter_congr _ env k ctx b.symm rfl h3)

theorem runInnerE_refines (envE : EnvE) (env : Env)
    (h1 : ∀ j, envE.toolsNonempty j = Except.ok (env.toolsNonempty j))
    (h2 : ∀ j, envE.plan j = Except.ok (env.plan j))
    (h3 : ∀ j, envE.sandbox j = env.sandbox j) :
    ∀ (fuel k : Nat) (ctx : Ctx),
      runInnerE envE k fuel ctx = Except.ok (runInner env k fuel ctx) := by
  intro fuel
  induction fuel with
  | zero =>
    intro k ctx
    rfl
  | succ fuel ih =>
    intro k ctx
    have hrefine := innerIterE_refines envE env k ctx (h1 k) (h2 k) (h3 k)
    cases ho : innerOutcome env k ctx with
    | ret r c =>
      have hi : innerIter env k ctx = (Outcome.ret r c, innerEvents env k ctx) := by
        simp [innerIter, ho]
      rw [hi] at hrefine
      simp [runInnerE, runInner, innerIter, hrefine, ho]
    | brk c =>
      have hi : innerIter env k ctx = (Outcome.brk c, innerEvents env k ctx) := by
        simp [innerIter, ho]
      rw [hi] at hrefine
      simp [runInnerE, runInner, innerIter, hrefine, ho]
    | cont c =>
      have hi : innerIter env k ctx = (Outcome.cont c, innerEvents env k ctx) := by
        simp [innerIter, ho]
      rw [hi] at hrefine
      simp [runInnerE, runInner, innerIter, hrefine, ho, ih]

theorem runOuterE_refines (envE : EnvE) (env : Env) (L : Nat)
    (h1 : ∀ j, envE.toolsNonempty j = Except.ok (env.toolsNonempty j))
    (h2 : ∀ j, envE.plan j = Except.ok (env.plan j))
    (h3 : ∀ j, envE.sandbox j = env.sandbox j) :
    ∀ (rem stepIdx k : Nat) (ctx : Ctx),
      runOuterE envE L k stepIdx rem ctx = Except.ok (runOuter env L k stepIdx rem ctx) := by
  intro rem
  induction rem with
  | zero =>
    intro stepIdx k ctx
    rfl
  | succ rem ih =>
    intro stepIdx k ctx
    have hri := runInnerE_refines envE env h1 h2 h3 (L + 1) k { ctx with step := stepIdx }
    cases hres : (runInner env k (L + 1) { ctx with step := stepIdx }).res with
    | some r => simp [runOuterE, runOuter, hri, hres]
    | none => simp [runOuterE, runOuter, hri, hres, ih]

/-- C1 counterexample: with max_steps 3 and max_lifelines_per_step 1 (so N
at least 1, L at least 0), a run whose first awaited generate_plan call
raises a prompt-template loading failure — which decision.py propagates, see
C5 — makes AgentLoop.run itself raise to its caller (loop.py awaits
generate_plan at line 56 with no try/except): the run yields an exception,
not a status-done mapping, refuting the claim's "never raises to its
caller". -/
theorem C1_raise_counterexample :
    1 ≤ 3 ∧
    AgentLoopE.run envERaise 3 1 ctx0 =
      Except.error "No such file or directory: prompts/decision_prompt_conservative.txt" ∧
    isOkRun (AgentLoopE.run envERaise 3 1 ctx0) = false :=
  ⟨by decide, rfl, rfl⟩

/-- C1 amended: for every max_steps N at least 1 and max_lifelines_per_step
L at least 0, AgentLoop.run adds no exception handling of its own.  When
every awaited collaborator call returns normally (the fallible environment
agrees with total oracles), the run returns normally with a mapping of
status "done" and a result string, every collaborator call happens in an
outer step below N, and each step issues at most L+1 inner attempts
(perception calls); termination is by construction of the total model.  But
when an awaited call raises — tool resolution or perception failing, or
generate_plan propagating a prompt-template failure — the exception
propagates uncaught through run to its caller. -/
theorem C1_loop_amended (envE : EnvE) (N L : Nat) (ctx : Ctx) (hN : 1 ≤ N) :
    (∀ env : Env,
      (∀ k, envE.toolsNonempty k = Except.ok (env.toolsNonempty k)) →
      (∀ k, envE.plan k = Except.ok (env.plan k)) →
      (∀ k, envE.sandbox k = env.sandbox k) →
      AgentLoopE.run envE N L ctx = Except.ok (AgentLoop.run env N L ctx) ∧
      (AgentLoop.run env N L ctx).result.status = "done" ∧
      (∀ e ∈ (AgentLoop.run env N L ctx).events, eventStep e < N) ∧
      (∀ s, (((AgentLoop.run env N L ctx).events).filter (isPerceptionAt s)).length ≤ L + 1)) ∧
    (∀ e, envE.toolsNonempty 0 = Except.error e →
      AgentLoopE.run envE N L ctx = Except.error e) ∧
    (∀ e, envE.toolsNonempty 0 = Except.ok true → envE.plan 0 = Except.error e →
      AgentLoopE.run envE N L ctx = Except.error e) := by
  obtain ⟨N', rfl⟩ : ∃ m, N = m + 1 := ⟨N - 1, by omega⟩
  refine ⟨?_, ?_, ?_⟩
  · intro env htools hplan hsand
    obtain ⟨h1, h2, h3, _⟩ := runOuter_spec env L (N' + 1) 0 0 ctx
    refine ⟨runOuterE_refines envE env L htools hplan hsand (N' + 1) 0 0 ctx, h1, ?_, h3⟩
    intro e he
    have := (h2 e he).2
    omega
  · intro e he
    simp only [AgentLoopE.run, runOuterE, runInnerE, innerIterE, he]
  · intro e htn he
    simp only [AgentLoopE.run, runOuterE, runInnerE, innerIterE, htn, he]

/-- Witness for C1 amended: a never-raising one-step environment agreeing
with envFinal, on which the fallible run returns the total run's done
mapping with the step and attempt bounds. -/
theorem C1_loop_amended_witness :
    1 ≤ 1 ∧
    (∀ k, envEFinal.toolsNonempty k = Except.ok (envFinal.toolsNonempty k)) ∧
    (∀ k, envEFinal.plan k = Except.ok (envFinal.plan k)) ∧
    (∀ k, envEFinal.sandbox k = envFinal.sandbox k) ∧
    (AgentLoopE.run envEFinal 1 0 ctx0 = Except.ok (AgentLoop.run envFinal 1 0 ctx0) ∧
     (AgentLoop.run envFinal 1 0 ctx0).result.status = "done" ∧
     (∀ e ∈ (AgentLoop.run envFinal 1 0 ctx0).events, eventStep e < 1) ∧
     (∀ s, (((AgentLoop.run envFinal 1 0 ctx0).events).filter (isPerceptionAt s)).length ≤ 0 + 1)) :=
  ⟨Nat.le_refl 1, fun _ => rfl, fun _ => rfl, fun _ => rfl,
    (C1_loop_amended envEFinal 1 0 ctx0 (Nat.le_refl 1)).1 envFinal
      (fun _ => rfl) (fun _ => rfl) (fun _ => rfl)⟩

/- ## C9: the planner always sees the original user input -/

/-- C9: in every inner iteration the plan generator is invoked with the
context's original user input — every planCall event of any run carries
ctx.user_input — while the perception call is the one that receives the
effective input (the override when set): the head event of every inner
iteration is a perception with effInput. -/
theorem C9_planner_original_input (env : Env) (N L : Nat) (ctx : Ctx) :
    (∀ s u, Event.planCall s u ∈ (AgentLoop.run env N L ctx).events → u = ctx.user_input) ∧
    (∀ k c, ((innerIter env k c).2).head? = some (Event.perception c.step (effInput c))) := by
  refine ⟨(runOuter_spec env L N 0 0 ctx).2.2.2, ?_⟩
  intro k c
  rfl

/-- Witness for C9: a run whose trace contains a planCall with the original
input, and an inner iteration on a context with an override whose perception
uses the override. -/
theorem C9_planner_original_input_witness :
    (Event.planCall 0 "orig task" ∈ (AgentLoop.run envFPR 2 0 ctx0).events) ∧
    ((innerIter envFPR 0 ctxOv).2).head? = some (Event.perception 4 "the override") :=
  ⟨by decide, (C9_planner_original_input envFPR 2 0 ctxOv).2 0 ctxOv⟩
